import Mathlib

/-!
A shallow embedding of `src/contexts/ProjectContext.tsx` of the AISCHOLARPRO
repository: the ProjectStore described by the specification.  Runtime values
flowing through the store are modelled by a JSON-like value type, the
persistence collaborator (`localStorage` under the fixed key
`academicProject`) by an `Option RawText` slot, and each store operation by a
function on an explicit store state.
-/

namespace AIScholarPro

/-- JSON-compatible runtime values: exactly the shapes `JSON.parse` can
produce.  Numbers are modelled as integers; no claim depends on numeric
semantics. -/
inductive Json where
  | null
  | bool (b : Bool)
  | num (n : Int)
  | str (s : String)
  | arr (elems : List Json)
  | obj (fields : List (String × Json))

/-- JavaScript truthiness of a runtime value (objects and arrays are always
truthy; `null`, `false`, `0` and the empty string are falsy). -/
def jsTruthy : Json → Bool
  | .null => false
  | .bool b => b
  | .num n => n != 0
  | .str s => s != ""
  | .arr _ => true
  | .obj _ => true

/-- Binding of key `k` in an object's field list (objects produced by
`JSON.parse` have unique keys). -/
def lookupField : List (String × Json) → String → Option Json
  | [], _ => none
  | (k1, v) :: rest, k => if k1 = k then some v else lookupField rest k

/-- Property read `j[k]`: an object yields its binding or `undefined`
(`none`); a primitive or array yields `undefined`; reading a property of
`null` throws, which call sites model separately. -/
def getField : Json → String → Option Json
  | .obj fields, k => lookupField fields k
  | _, _ => none

/-- Property write on a field list: replace in place when the key exists,
otherwise append (JavaScript insertion order). -/
def setAssoc : List (String × Json) → String → Json → List (String × Json)
  | [], k, v => [(k, v)]
  | (k1, v1) :: rest, k, v =>
      if k1 = k then (k1, v) :: rest else (k1, v1) :: setAssoc rest k v

/-- Property write `j[k] = v` on an object; on any other value the
component never attempts it. -/
def setField : Json → String → Json → Json
  | .obj fields, k, v => .obj (setAssoc fields k v)
  | j, _, _ => j

/-- Truthiness of `j[k]` the way the source tests it (`if (j.k)`): a missing
binding is `undefined`, hence falsy. -/
def truthyField (j : Json) (k : String) : Bool :=
  match getField j k with
  | some v => jsTruthy v
  | none => false

/-- Whether a value is the JavaScript `null` (reading a property of it
throws a TypeError). -/
def isNull : Json → Bool
  | .null => true
  | _ => false

/-- The exceptions the component can observe.  The `message` strings of the
two platform errors are modelled by fixed representative texts. -/
inductive JsError where
  | syntaxError
  | typeError
  | appError (msg : String)
deriving DecidableEq

/-- `(error as Error).message`. -/
def errMessage : JsError → String
  | .syntaxError => "Unexpected token in JSON"
  | .typeError => "Cannot read properties of null"
  | .appError msg => msg

/-- A raw text as far as `JSON.parse` is concerned.  Strings are partitioned
into those that parse to a value `j` (`jsonOf j`) and those on which parsing
throws (`garbage`; the empty string also behaves as the latter in
`getInitialData`, since `if (savedProject)` skips it).  `JSON.stringify`
returns a text of the first kind, which encodes the platform guarantee
`JSON.parse(JSON.stringify(x)) = x`; the pretty-printed export text and the
compact persistence text parse alike, so both are `jsonOf j`. -/
inductive RawText where
  | jsonOf (j : Json)
  | garbage

/-- `JSON.parse`, by the partition above. -/
def jsonParse : RawText → Except JsError Json
  | .jsonOf j => .ok j
  | .garbage => .error .syntaxError

/-- `JSON.stringify` (with or without indentation). -/
def jsonStringify (j : Json) : RawText := .jsonOf j

/-- Placeholder backfilled into a missing or falsy `preface`. -/
def prefaceDefault : String := "<p>Kata Pengantar belum dibuat.</p>"

/-- Placeholder backfilled into a missing or falsy `abstract`. -/
def abstractDefault : String := "<p>Abstrak belum dibuat.</p>"

/-- One compatibility line `if (!d[k]) d[k] = v`. -/
def backfillField (j : Json) (k : String) (v : Json) : Json :=
  if truthyField j k then j else setField j k v

/-- The compatibility backfill applied by `getInitialData` (lines 14-19) and
by the import flow (lines 106-111): the six optional fields, in source
order. -/
def backfill (j : Json) : Json :=
  backfillField (backfillField (backfillField (backfillField (backfillField
    (backfillField j "bibliography" (.arr []))
    "appendices" (.arr []))
    "statementPageData" .null)
    "approvalData" .null)
    "preface" (.str prefaceDefault))
    "abstract" (.str abstractDefault)

/-- The import validity test (line 104):
`importedData.title && importedData.outline && importedData.chapters &&
importedData.authorInfo`. -/
def validDoc (j : Json) : Bool :=
  truthyField j "title" && truthyField j "outline" &&
    truthyField j "chapters" && truthyField j "authorInfo"

/-- Modelled from the spec: the repository reads `initialProjectData` from
`src/data/initialProject`, a file that is not present under `src/`.  Per the
spec (sections 3 and 4.1) it is a built-in default Document: the required
fields `title`, `authorInfo`, `outline` and `chapters` together with the six
optional fields at their defaults.  No claim depends on the particular field
values, only on it being a (truthy) Document. -/
def initialProjectData : Json :=
  .obj [("title", .str "Proyek Akademik Baru"),
        ("authorInfo", .obj []),
        ("outline", .obj []),
        ("chapters", .arr []),
        ("bibliography", .arr []),
        ("appendices", .arr []),
        ("statementPageData", .null),
        ("approvalData", .null),
        ("preface", .str prefaceDefault),
        ("abstract", .str abstractDefault)]

/-- What `getInitialData` returns, together with whether the `catch` branch
logged an error. -/
structure LoadResult where
  data : Json
  logged : Bool

/-- The body of the `try` in `getInitialData` (lines 8-23): parse the slot,
accept the stored document when `parsedProject.title && parsedProject.authorInfo`
is truthy (backfilling first), otherwise fall through to the default.
Reading `.title` on a parsed `null` throws a TypeError. -/
def getInitialDataBody (slot : Option RawText) : Except JsError Json :=
  match slot with
  | none => .ok initialProjectData
  | some raw =>
      match jsonParse raw with
      | .error e => .error e
      | .ok parsed =>
          if isNull parsed then .error .typeError
          else if truthyField parsed "title" && truthyField parsed "authorInfo" then
            .ok (backfill parsed)
          else
            .ok initialProjectData

/-- `getInitialData` (lines 7-28): the `catch` turns any failure into the
built-in default, logging it. -/
def getInitialData (slot : Option RawText) : LoadResult :=
  match getInitialDataBody slot with
  | .ok d => ⟨d, false⟩
  | .error _ => ⟨initialProjectData, true⟩

/-- The store state together with the persistence collaborator's single slot
(`localStorage`, key `academicProject`).  The JavaScript variable
`projectData` holds either a document or `null`; `Json.null` models the
absent document. -/
structure StoreState where
  projectData : Json
  isCreatingProject : Bool
  isHumanizingCooldown : Bool
  slot : Option RawText

/-- The persistence effect (lines 55-61), run after every change of
`projectData`: a truthy document is serialized into the slot, otherwise the
slot is removed. -/
def persistEffect (s : StoreState) : StoreState :=
  if jsTruthy s.projectData then
    { s with slot := some (jsonStringify s.projectData) }
  else
    { s with slot := none }

/-- `setProjectData d` followed by the persistence effect it triggers. -/
def setProjectDataAndPersist (d : Json) (s : StoreState) : StoreState :=
  persistEffect { s with projectData := d }

/-- The observable outcome of one store operation: the new state, the alert
messages shown, whether a `window.confirm` prompt was asked, and a triggered
file download (name and content), if any. -/
structure OpOut where
  state : StoreState
  alerts : List String
  confirmAsked : Bool
  download : Option (String × RawText)

/-- `onProjectUpdate` (lines 63-65): replace the document unconditionally. -/
def onProjectUpdate (d : Json) (s : StoreState) : OpOut :=
  ⟨setProjectDataAndPersist d s, [], false, none⟩

/-- `loadProject` (lines 67-69). -/
def loadProject (d : Json) (s : StoreState) : OpOut :=
  ⟨setProjectDataAndPersist d s, [], false, none⟩

/-- `startNewProject` (lines 71-76): on confirmation, remove the slot and set
the document to `null` (whose persistence effect removes the slot again);
declining changes nothing. -/
def startNewProject (confirmAnswer : Bool) (s : StoreState) : OpOut :=
  if confirmAnswer then
    ⟨setProjectDataAndPersist .null { s with slot := none }, [], true, none⟩
  else
    ⟨s, [], true, none⟩

/-- First phase of `createProject` (line 79), up to the `await`. -/
def createStart (s : StoreState) : StoreState :=
  { s with isCreatingProject := true }

/-- Resumption of `createProject` (lines 80-89) once `initializeNewProject`
settles.  The generation collaborator is opaque (spec section 6); its
settlement is the `outcome` argument: a Document, or an error message.  The
`finally` clears the flag on both paths. -/
def createFinish (outcome : Except String Json) (s : StoreState) : OpOut :=
  match outcome with
  | .ok newProject =>
      ⟨setProjectDataAndPersist newProject { s with isCreatingProject := false },
        [], false, none⟩
  | .error msg =>
      ⟨{ s with isCreatingProject := false },
        ["Gagal membuat proyek baru. Error: " ++ msg], false, none⟩

/-- `createProject` (lines 78-90), both phases composed. -/
def createProject (outcome : Except String Json) (s : StoreState) : OpOut :=
  createFinish outcome (createStart s)

/-- The import failure alert (line 120). -/
def importFailAlert (e : JsError) : String :=
  "Gagal mengimpor proyek. Pastikan file JSON valid dan berasal dari aplikasi ini. Error: "
    ++ errMessage e

/-- The `try` body of `performImport` (lines 102-117): parse, test the four
required fields (reading `.title` on a parsed `null` throws), backfill and
set on success, otherwise `throw new Error(...)`. -/
def performImportBody (fileContent : RawText) (s : StoreState) :
    Except JsError (StoreState × List String) :=
  match jsonParse fileContent with
  | .error e => .error e
  | .ok importedData =>
      if isNull importedData then .error .typeError
      else if validDoc importedData then
        .ok (setProjectDataAndPersist (backfill importedData) s, ["Proyek berhasil diimpor!"])
      else
        .error (.appError "Struktur file tidak valid atau file rusak.")

/-- `performImport` (lines 101-122): the `catch` reports any failure and
leaves the state alone. -/
def performImport (fileContent : RawText) (s : StoreState) : StoreState × List String :=
  match performImportBody fileContent s with
  | .ok r => r
  | .error e => (s, [importFailAlert e])

/-- `importProject` (lines 100-131): with an active (truthy) document the
overwrite confirmation guards the import; declining does nothing. -/
def importProject (fileContent : RawText) (confirmAnswer : Bool) (s : StoreState) : OpOut :=
  if jsTruthy s.projectData then
    if confirmAnswer then
      ⟨(performImport fileContent s).1, (performImport fileContent s).2, true, none⟩
    else
      ⟨s, [], true, none⟩
  else
    ⟨(performImport fileContent s).1, (performImport fileContent s).2, false, none⟩

/-- Membership in the character class `[a-z0-9]`. -/
def isSlugChar (c : Char) : Bool :=
  (decide ('a' ≤ c) && decide (c ≤ 'z')) || (decide ('0' ≤ c) && decide (c ≤ '9'))

/-- `.replace(/[^a-z0-9]+/g, '-')` on a lower-cased character list: every
maximal run of characters outside `[a-z0-9]` becomes a single hyphen.  The
flag records whether the previous character belonged to such a run. -/
def collapseRuns : Bool → List Char → List Char
  | _, [] => []
  | inRun, c :: rest =>
      if isSlugChar c then c :: collapseRuns false rest
      else if inRun then collapseRuns true rest
      else '-' :: collapseRuns true rest

/-- Drop a single leading hyphen, if present. -/
def dropLeadHyphen : List Char → List Char
  | '-' :: rest => rest
  | l => l

/-- `.replace(/(^-|-$)/g, '')`: the unanchored-global regex removes one
hyphen at the start and one at the end of the string. -/
def trimHyphens (l : List Char) : List Char :=
  (dropLeadHyphen (dropLeadHyphen l).reverse).reverse

/-- `projectData.title.toLowerCase().replace(/[^a-z0-9]+/g, '-').replace(/(^-|-$)/g, '')`
(line 143). -/
def sanitizeTitle (t : String) : String :=
  String.mk (trimHyphens (collapseRuns false (t.data.map Char.toLower)))

/-- The download file name (line 144):
`proyek-akademik-${sanitizedTitle || 'tanpa-judul'}.json`. -/
def exportFileName (t : String) : String :=
  "proyek-akademik-" ++ (if sanitizeTitle t = "" then "tanpa-judul" else sanitizeTitle t)
    ++ ".json"

/-- The document's `title` property, when it holds a string. -/
def titleString (j : Json) : Option String :=
  match getField j "title" with
  | some (.str t) => some t
  | _ => none

/-- `exportProject` (lines 133-155): without a truthy document, alert and
stop; otherwise serialize (pretty-printed) and trigger the download.  The
`try` throws exactly when `projectData.title` is not a string (property
read on `null`, or `toLowerCase` on a non-string); the `catch` turns that
into the generic export alert. -/
def exportProject (s : StoreState) : OpOut :=
  if jsTruthy s.projectData then
    match titleString s.projectData with
    | some t =>
        ⟨s, [], false, some (exportFileName t, jsonStringify s.projectData)⟩
    | none => ⟨s, ["Gagal mengekspor proyek."], false, none⟩
  else
    ⟨s, ["Tidak ada proyek aktif untuk diekspor."], false, none⟩

/-- The state change of `startHumanizingCooldown` (lines 92-98) on the store
flags; the scheduled reset is modelled by the timed machine below. -/
def startHumanizingCooldownFlag (s : StoreState) : StoreState :=
  { s with isHumanizingCooldown := true }

/-- One store operation together with the external inputs that decide its
branches: confirmation answers, the generation collaborator's settlement,
and the imported text. -/
inductive Op where
  | update (d : Json)
  | load (d : Json)
  | reset (confirmAnswer : Bool)
  | createStartOp
  | createFinishOp (outcome : Except String Json)
  | importOp (fileContent : RawText) (confirmAnswer : Bool)
  | exportOp
  | cooldownOp

/-- Run one operation. -/
def applyOp : Op → StoreState → OpOut
  | .update d, s => onProjectUpdate d s
  | .load d, s => loadProject d s
  | .reset c, s => startNewProject c s
  | .createStartOp, s => ⟨createStart s, [], false, none⟩
  | .createFinishOp outcome, s => createFinish outcome s
  | .importOp f c, s => importProject f c s
  | .exportOp, s => exportProject s
  | .cooldownOp, s => ⟨startHumanizingCooldownFlag s, [], false, none⟩

/-- What the slot must hold for the persisted snapshot to agree with the
in-memory document. -/
def expectedSlot (s : StoreState) : Option RawText :=
  if jsTruthy s.projectData then some (jsonStringify s.projectData) else none

/-- The persistence invariant: the slot holds the active document's
serialization exactly when the document is present. -/
def SlotConsistent (s : StoreState) : Prop :=
  s.slot = expectedSlot s

/-- The cooldown machine: the guard flag and the pending `setTimeout`
callbacks, kept as their absolute fire times in milliseconds. -/
structure CdState where
  flag : Bool
  timers : List Nat
deriving DecidableEq

/-- `startHumanizingCooldown` called at absolute time `now`: set the flag and
schedule a reset 15000 ms later.  No earlier timer is cancelled. -/
def cdStart (now : Nat) (s : CdState) : CdState :=
  ⟨true, s.timers ++ [now + 15000]⟩

/-- Observe the machine at time `t`: every timer due by `t` has fired, and
each firing sets the flag to `false`; timers not yet due remain pending. -/
def cdRunThrough (t : Nat) (s : CdState) : CdState :=
  ⟨if s.timers.any (fun ft => decide (ft ≤ t)) then false else s.flag,
   s.timers.filter (fun ft => decide (t < ft))⟩



theorem lookupField_setAssoc (fs : List (String × Json)) (k k2 : String) (v : Json) :
    lookupField (setAssoc fs k v) k2 = if k2 = k then some v else lookupField fs k2 := by
  induction fs with
  | nil =>
      by_cases h : k = k2
      · subst h; simp [setAssoc, lookupField]
      · have h2 : ¬k2 = k := fun hh => h hh.symm
        simp [setAssoc, lookupField, h, h2]
  | cons hd tl ih =>
      obtain ⟨k1, v1⟩ := hd
      by_cases h1 : k1 = k
      · subst h1
        by_cases h2 : k1 = k2
        · subst h2; simp [setAssoc, lookupField]
        · have h3 : ¬k2 = k1 := fun hh => h2 hh.symm
          simp [setAssoc, lookupField, h2, h3]
      · by_cases h2 : k1 = k2
        · subst h2
          have h3 : ¬k1 = k := h1
          simp [setAssoc, lookupField, h3, fun hh : k1 = k => h1 hh]
        · have h4 : ¬k2 = k1 := fun hh => h2 hh.symm
          simp [setAssoc, lookupField, h1, h2, ih]

theorem backfillField_getField_ne (j : Json) (k k2 : String) (v : Json) (h : k2 ≠ k) :
    getField (backfillField j k v) k2 = getField j k2 := by
  unfold backfillField
  split
  · rfl
  · cases j with
    | obj fs => simp [setField, getField, lookupField_setAssoc, h]
    | null => rfl
    | bool b => rfl
    | num n => rfl
    | str s => rfl
    | arr l => rfl

theorem getField_backfillField_self (fs : List (String × Json)) (k : String) (v : Json) :
    getField (backfillField (Json.obj fs) k v) k =
      if truthyField (Json.obj fs) k then getField (Json.obj fs) k else some v := by
  unfold backfillField
  split
  · simp_all
  · simp_all [setField, getField, lookupField_setAssoc]

theorem backfillField_obj (fs : List (String × Json)) (k : String) (v : Json) :
    ∃ gs, backfillField (Json.obj fs) k v = Json.obj gs := by
  unfold backfillField
  split
  · exact ⟨fs, rfl⟩
  · exact ⟨setAssoc fs k v, rfl⟩



def optionalDefaults : List (String × Json) :=
  [("bibliography", .arr []), ("appendices", .arr []), ("statementPageData", .null),
   ("approvalData", .null), ("preface", .str prefaceDefault), ("abstract", .str abstractDefault)]

def applyDefaults (j : Json) (ds : List (String × Json)) : Json :=
  ds.foldl (fun a p => backfillField a p.1 p.2) j

theorem backfill_eq_applyDefaults (j : Json) : backfill j = applyDefaults j optionalDefaults := rfl

def FieldStable (j : Json) (k : String) (v : Json) : Prop :=
  truthyField j k = true ∨ getField j k = some v

theorem fieldStable_congr (j1 j2 : Json) (k : String) (v : Json)
    (h : getField j1 k = getField j2 k) : FieldStable j1 k v ↔ FieldStable j2 k v := by
  unfold FieldStable truthyField
  rw [h]

theorem fieldStable_backfillField_obj (fs : List (String × Json)) (k : String) (v : Json) :
    FieldStable (backfillField (Json.obj fs) k v) k v := by
  unfold FieldStable backfillField
  split
  · exact Or.inl (by assumption)
  · exact Or.inr (by simp [setField, getField, lookupField_setAssoc])

theorem setAssoc_self (fs : List (String × Json)) (k : String) (v : Json)
    (h : lookupField fs k = some v) : setAssoc fs k v = fs := by
  induction fs with
  | nil => simp [lookupField] at h
  | cons hd tl ih =>
      obtain ⟨k1, v1⟩ := hd
      by_cases hk : k1 = k
      · subst hk
        simp [lookupField] at h
        simp [setAssoc, h]
      · simp [lookupField, hk] at h
        simp [setAssoc, hk, ih h]

theorem backfillField_of_stable (j : Json) (k : String) (v : Json)
    (h : FieldStable j k v) : backfillField j k v = j := by
  unfold backfillField
  split
  · rfl
  · rcases h with h | h
    · simp_all
    · cases j with
      | obj fs =>
          simp only [setField]
          simp only [getField] at h
          rw [setAssoc_self fs k v h]
      | null => rfl
      | bool b => rfl
      | num n => rfl
      | str s => rfl
      | arr l => rfl

theorem getField_applyDefaults_ne (ds : List (String × Json)) (j : Json) (k : String)
    (h : ∀ p ∈ ds, p.1 ≠ k) : getField (applyDefaults j ds) k = getField j k := by
  induction ds generalizing j with
  | nil => rfl
  | cons hd tl ih =>
      simp only [applyDefaults, List.foldl_cons] at ih ⊢
      rw [ih _ (fun p hp => h p (List.mem_cons_of_mem _ hp)),
        backfillField_getField_ne _ _ _ _ (h hd (List.mem_cons_self _ _)).symm]

theorem applyDefaults_obj (ds : List (String × Json)) (fs : List (String × Json)) :
    ∃ gs, applyDefaults (Json.obj fs) ds = Json.obj gs := by
  induction ds generalizing fs with
  | nil => exact ⟨fs, rfl⟩
  | cons hd tl ih =>
      obtain ⟨g, hg⟩ := backfillField_obj fs hd.1 hd.2
      simp only [applyDefaults, List.foldl_cons] at ih ⊢
      rw [hg]
      exact ih g

theorem fieldStable_applyDefaults_ne (ds : List (String × Json)) (j : Json)
    (k : String) (v : Json) (h : FieldStable j k v) (hne : ∀ p ∈ ds, p.1 ≠ k) :
    FieldStable (applyDefaults j ds) k v := by
  have hg : getField (applyDefaults j ds) k = getField j k :=
    getField_applyDefaults_ne ds j k hne
  exact (fieldStable_congr _ _ _ _ hg).mpr h

theorem stable_applyDefaults (ds : List (String × Json)) (fs : List (String × Json))
    (hnd : ds.Pairwise (fun p q => p.1 ≠ q.1)) :
    ∀ p ∈ ds, FieldStable (applyDefaults (Json.obj fs) ds) p.1 p.2 := by
  induction ds generalizing fs with
  | nil => intro p hp; cases hp
  | cons hd tl ih =>
      intro p hp
      obtain ⟨g, hg⟩ := backfillField_obj fs hd.1 hd.2
      rcases List.mem_cons.mp hp with rfl | hp2
      · simp only [applyDefaults, List.foldl_cons]
        rw [hg]
        refine fieldStable_applyDefaults_ne tl (Json.obj g) p.1 p.2 ?_ ?_
        · rw [← hg]; exact fieldStable_backfillField_obj fs p.1 p.2
        · exact fun q hq => Ne.symm ((List.pairwise_cons.mp hnd).1 q hq)
      · simp only [applyDefaults, List.foldl_cons]
        rw [hg]
        exact ih g (List.pairwise_cons.mp hnd).2 p hp2

theorem applyDefaults_of_stable (ds : List (String × Json)) (j : Json)
    (h : ∀ p ∈ ds, FieldStable j p.1 p.2) : applyDefaults j ds = j := by
  induction ds with
  | nil => rfl
  | cons hd tl ih =>
      simp only [applyDefaults, List.foldl_cons] at ih ⊢
      rw [backfillField_of_stable j hd.1 hd.2 (h hd (List.mem_cons_self _ _))]
      exact ih (fun p hp => h p (List.mem_cons_of_mem _ hp))


theorem optionalDefaults_pairwise :
    optionalDefaults.Pairwise (fun p q => p.1 ≠ q.1) := by
  decide

theorem backfill_idem (j : Json) : backfill (backfill j) = backfill j := by
  cases j with
  | obj fs =>
      rw [backfill_eq_applyDefaults, backfill_eq_applyDefaults]
      exact applyDefaults_of_stable optionalDefaults _
        (stable_applyDefaults optionalDefaults fs optionalDefaults_pairwise)
  | null => rfl
  | bool b => rfl
  | num n => rfl
  | str s => rfl
  | arr l => rfl


theorem getField_applyDefaults_split (fs pre post : List (String × Json))
    (k : String) (v : Json)
    (hpre : ∀ p ∈ pre, p.1 ≠ k) (hpost : ∀ p ∈ post, p.1 ≠ k) :
    getField (applyDefaults (Json.obj fs) (pre ++ (k, v) :: post)) k =
      if truthyField (Json.obj fs) k then getField (Json.obj fs) k else some v := by
  obtain ⟨g, hg⟩ := applyDefaults_obj pre fs
  have hgf : getField (Json.obj g) k = getField (Json.obj fs) k := by
    rw [← hg]; exact getField_applyDefaults_ne pre _ k hpre
  have hgt : truthyField (Json.obj g) k = truthyField (Json.obj fs) k := by
    unfold truthyField; rw [hgf]
  simp only [applyDefaults, List.foldl_append, List.foldl_cons]
  have h1 : List.foldl (fun a p => backfillField a p.1 p.2) (Json.obj fs) pre = Json.obj g := hg
  rw [h1]
  have h2 : getField (applyDefaults (backfillField (Json.obj g) k v) post) k =
      getField (backfillField (Json.obj g) k v) k :=
    getField_applyDefaults_ne post _ k hpost
  simp only [applyDefaults] at h2
  rw [h2, getField_backfillField_self g k v, hgf, hgt]


theorem getField_backfill_bibliography (fs : List (String × Json)) :
    getField (backfill (Json.obj fs)) "bibliography" =
      if truthyField (Json.obj fs) "bibliography" then getField (Json.obj fs) "bibliography"
      else some (Json.arr []) := by
  rw [backfill_eq_applyDefaults,
    show optionalDefaults = ([] : List (String × Json)) ++ ("bibliography", Json.arr []) :: [("appendices", Json.arr []), ("statementPageData", Json.null), ("approvalData", Json.null), ("preface", Json.str prefaceDefault), ("abstract", Json.str abstractDefault)] from rfl]
  exact getField_applyDefaults_split fs _ _ _ _ (by decide) (by decide)

theorem getField_backfill_appendices (fs : List (String × Json)) :
    getField (backfill (Json.obj fs)) "appendices" =
      if truthyField (Json.obj fs) "appendices" then getField (Json.obj fs) "appendices"
      else some (Json.arr []) := by
  rw [backfill_eq_applyDefaults,
    show optionalDefaults = [("bibliography", Json.arr [])] ++ ("appendices", Json.arr []) :: [("statementPageData", Json.null), ("approvalData", Json.null), ("preface", Json.str prefaceDefault), ("abstract", Json.str abstractDefault)] from rfl]
  exact getField_applyDefaults_split fs _ _ _ _ (by decide) (by decide)

theorem getField_backfill_statementPageData (fs : List (String × Json)) :
    getField (backfill (Json.obj fs)) "statementPageData" =
      if truthyField (Json.obj fs) "statementPageData" then getField (Json.obj fs) "statementPageData"
      else some (Json.null) := by
  rw [backfill_eq_applyDefaults,
    show optionalDefaults = [("bibliography", Json.arr []), ("appendices", Json.arr [])] ++ ("statementPageData", Json.null) :: [("approvalData", Json.null), ("preface", Json.str prefaceDefault), ("abstract", Json.str abstractDefault)] from rfl]
  exact getField_applyDefaults_split fs _ _ _ _ (by decide) (by decide)

theorem getField_backfill_approvalData (fs : List (String × Json)) :
    getField (backfill (Json.obj fs)) "approvalData" =
      if truthyField (Json.obj fs) "approvalData" then getField (Json.obj fs) "approvalData"
      else some (Json.null) := by
  rw [backfill_eq_applyDefaults,
    show optionalDefaults = [("bibliography", Json.arr []), ("appendices", Json.arr []), ("statementPageData", Json.null)] ++ ("approvalData", Json.null) :: [("preface", Json.str prefaceDefault), ("abstract", Json.str abstractDefault)] from rfl]
  exact getField_applyDefaults_split fs _ _ _ _ (by decide) (by decide)

theorem getField_backfill_preface (fs : List (String × Json)) :
    getField (backfill (Json.obj fs)) "preface" =
      if truthyField (Json.obj fs) "preface" then getField (Json.obj fs) "preface"
      else some (Json.str prefaceDefault) := by
  rw [backfill_eq_applyDefaults,
    show optionalDefaults = [("bibliography", Json.arr []), ("appendices", Json.arr []), ("statementPageData", Json.null), ("approvalData", Json.null)] ++ ("preface", Json.str prefaceDefault) :: [("abstract", Json.str abstractDefault)] from rfl]
  exact getField_applyDefaults_split fs _ _ _ _ (by decide) (by decide)

theorem getField_backfill_abstract (fs : List (String × Json)) :
    getField (backfill (Json.obj fs)) "abstract" =
      if truthyField (Json.obj fs) "abstract" then getField (Json.obj fs) "abstract"
      else some (Json.str abstractDefault) := by
  rw [backfill_eq_applyDefaults,
    show optionalDefaults = [("bibliography", Json.arr []), ("appendices", Json.arr []), ("statementPageData", Json.null), ("approvalData", Json.null), ("preface", Json.str prefaceDefault)] ++ ("abstract", Json.str abstractDefault) :: ([] : List (String × Json)) from rfl]
  exact getField_applyDefaults_split fs _ _ _ _ (by decide) (by decide)


theorem persistEffect_consistent (s : StoreState) : SlotConsistent (persistEffect s) := by
  unfold SlotConsistent persistEffect expectedSlot
  by_cases h : jsTruthy s.projectData = true <;> simp [h]

theorem performImport_consistent (f : RawText) (s : StoreState) (h : SlotConsistent s) :
    SlotConsistent (performImport f s).1 := by
  unfold performImport
  cases hb : performImportBody f s with
  | error e => exact h
  | ok r =>
      unfold performImportBody at hb
      cases f with
      | garbage => simp [jsonParse] at hb
      | jsonOf j =>
          simp only [jsonParse] at hb
          split at hb
          · simp at hb
          · split at hb
            · injection hb with hr
              subst hr
              exact persistEffect_consistent _
            · simp at hb

/-- C1: every store transition leaves the persistence slot consistent with
the in-memory document: present (truthy) documents are serialized into the
slot, an absent document means no slot entry. -/
theorem every_transition_keeps_slot_consistent (op : Op) (s : StoreState)
    (h : SlotConsistent s) : SlotConsistent (applyOp op s).state := by
  cases op with
  | update d => exact persistEffect_consistent _
  | load d => exact persistEffect_consistent _
  | reset c =>
      cases c with
      | false => exact h
      | true => exact persistEffect_consistent _
  | createStartOp => exact h
  | createFinishOp outcome =>
      cases outcome with
      | ok d => exact persistEffect_consistent _
      | error m => exact h
  | importOp f c =>
      show SlotConsistent (importProject f c s).state
      unfold importProject
      by_cases h1 : jsTruthy s.projectData = true
      · cases c with
        | false => simp [h1]; exact h
        | true => simp [h1]; exact performImport_consistent f s h
      · simp [h1]; exact performImport_consistent f s h
  | exportOp =>
      show SlotConsistent (exportProject s).state
      unfold exportProject
      by_cases h1 : jsTruthy s.projectData = true
      · cases ht : titleString s.projectData <;> simp [h1, ht] <;> exact h
      · simp [h1]; exact h
  | cooldownOp => exact h

/-- C1 witness. -/
theorem every_transition_keeps_slot_consistent_witness :
    SlotConsistent ⟨Json.null, false, false, none⟩ ∧
      SlotConsistent (applyOp (Op.update (Json.obj [("title", Json.str "a")]))
        ⟨Json.null, false, false, none⟩).state :=
  ⟨rfl, every_transition_keeps_slot_consistent _ _ rfl⟩


/-- C7: `startNewProject` asks for confirmation in both outcomes; declining
returns the state unchanged with no alert; confirming removes the slot and
sets the store document to absent. -/
theorem startNewProject_confirmation (s : StoreState) :
    startNewProject false s = ⟨s, [], true, none⟩ ∧
    (startNewProject true s).confirmAsked = true ∧
    (startNewProject true s).state.projectData = Json.null ∧
    (startNewProject true s).state.slot = none ∧
    (startNewProject true s).alerts = [] :=
  ⟨rfl, rfl, rfl, rfl, rfl⟩

/-- C9: the creating flag is raised at the start of `createProject` and is
false after either settlement of the generation collaborator; on failure the
document and the slot are untouched and the alert carries the failure's
message. -/
theorem createProject_flag_and_failure (s : StoreState)
    (outcome : Except String Json) (msg : String) :
    (createStart s).isCreatingProject = true ∧
    (createProject outcome s).state.isCreatingProject = false ∧
    (createProject (Except.error msg) s).state = { s with isCreatingProject := false } ∧
    (createProject (Except.error msg) s).alerts
      = ["Gagal membuat proyek baru. Error: " ++ msg] := by
  refine ⟨rfl, ?_, rfl, rfl⟩
  cases outcome with
  | ok d =>
      show (persistEffect { s with isCreatingProject := false, projectData := d
        }).isCreatingProject = false
      unfold persistEffect
      split <;> rfl
  | error m => rfl


theorem truthyField_obj {j : Json} {k : String} (h : truthyField j k = true) :
    ∃ fs, j = Json.obj fs := by
  cases j with
  | obj fs => exact ⟨fs, rfl⟩
  | null => simp [truthyField, getField] at h
  | bool b => simp [truthyField, getField] at h
  | num n => simp [truthyField, getField] at h
  | str t => simp [truthyField, getField] at h
  | arr l => simp [truthyField, getField] at h

theorem jsTruthy_backfill_obj (fs : List (String × Json)) :
    jsTruthy (backfill (Json.obj fs)) = true := by
  rw [backfill_eq_applyDefaults]
  obtain ⟨g, hg⟩ := applyDefaults_obj optionalDefaults fs
  rw [hg]
  rfl

/-- C2: `getInitialData` never yields an absent document; an absent slot or
an unparsable slot yields the built-in default, the unparsable case being
caught and logged rather than propagated (the function is total). -/
theorem getInitialData_total_default (slot : Option RawText) :
    jsTruthy (getInitialData slot).data = true ∧
    getInitialData none = ⟨initialProjectData, false⟩ ∧
    getInitialData (some RawText.garbage) = ⟨initialProjectData, true⟩ := by
  refine ⟨?_, rfl, rfl⟩
  cases slot with
  | none => rfl
  | some raw =>
      cases raw with
      | garbage => rfl
      | jsonOf j =>
          cases hnull : isNull j with
          | true =>
              have hb : getInitialDataBody (some (RawText.jsonOf j))
                  = Except.error JsError.typeError := by
                simp [getInitialDataBody, jsonParse, hnull]
              unfold getInitialData
              rw [hb]
              rfl
          | false =>
              cases htr : (truthyField j "title" && truthyField j "authorInfo") with
              | true =>
                  have hb : getInitialDataBody (some (RawText.jsonOf j))
                      = Except.ok (backfill j) := by
                    simp [getInitialDataBody, jsonParse, hnull, htr]
                  unfold getInitialData
                  rw [hb]
                  have h1 : truthyField j "title" = true := by
                    simp only [Bool.and_eq_true] at htr
                    exact htr.1
                  obtain ⟨fs, rfl⟩ := truthyField_obj h1
                  exact jsTruthy_backfill_obj fs
              | false =>
                  have hb : getInitialDataBody (some (RawText.jsonOf j))
                      = Except.ok initialProjectData := by
                    simp [getInitialDataBody, jsonParse, hnull, htr]
                  unfold getInitialData
                  rw [hb]
                  rfl

/-- C10: a stored value that parses to an object is discarded in favour of
the built-in default whenever `title` or `authorInfo` is missing or falsy,
and accepted (backfilled) exactly when both are truthy. -/
theorem getInitialData_truthiness_gate (fs gs : List (String × Json))
    (h1 : truthyField (Json.obj fs) "title" = false ∨
      truthyField (Json.obj fs) "authorInfo" = false)
    (h2 : truthyField (Json.obj gs) "title" = true)
    (h3 : truthyField (Json.obj gs) "authorInfo" = true) :
    getInitialData (some (RawText.jsonOf (Json.obj fs))) = ⟨initialProjectData, false⟩ ∧
    getInitialData (some (RawText.jsonOf (Json.obj gs)))
      = ⟨backfill (Json.obj gs), false⟩ := by
  constructor
  · have hand : (truthyField (Json.obj fs) "title" &&
        truthyField (Json.obj fs) "authorInfo") = false := by
      rcases h1 with h | h <;> simp [h]
    have hb : getInitialDataBody (some (RawText.jsonOf (Json.obj fs)))
        = Except.ok initialProjectData := by
      simp [getInitialDataBody, jsonParse, isNull, hand]
    unfold getInitialData
    rw [hb]
  · have hb : getInitialDataBody (some (RawText.jsonOf (Json.obj gs)))
        = Except.ok (backfill (Json.obj gs)) := by
      simp [getInitialDataBody, jsonParse, isNull, h2, h3]
    unfold getInitialData
    rw [hb]

/-- C10 witness: an empty-string `title` is discarded; a truthy pair is
accepted. -/
theorem getInitialData_truthiness_gate_witness :
    getInitialData (some (RawText.jsonOf (Json.obj [("title", Json.str "")])))
      = ⟨initialProjectData, false⟩ ∧
    getInitialData (some (RawText.jsonOf
        (Json.obj [("title", Json.str "x"), ("authorInfo", Json.obj [])])))
      = ⟨backfill (Json.obj [("title", Json.str "x"), ("authorInfo", Json.obj [])]), false⟩ :=
  getInitialData_truthiness_gate _ _ (Or.inl rfl) rfl rfl


theorem getField_some_obj {j : Json} {k : String} {v : Json}
    (h : getField j k = some v) : ∃ fs, j = Json.obj fs := by
  cases j with
  | obj fs => exact ⟨fs, rfl⟩
  | null => simp [getField] at h
  | bool b => simp [getField] at h
  | num n => simp [getField] at h
  | str t => simp [getField] at h
  | arr l => simp [getField] at h

/-- C3: the failing import paths are atomic.  An unparsable text, or a parsed
value lacking any of the four required fields, leaves the state unchanged and
shows exactly one failure alert; declining the overwrite confirmation leaves
the state unchanged and shows no alert. -/
theorem importProject_failure_atomic (s : StoreState) (j : Json) (raw : RawText) :
    (importProject RawText.garbage true s).state = s ∧
    (importProject RawText.garbage true s).alerts = [importFailAlert JsError.syntaxError] ∧
    ((getField j "title" = none ∨ getField j "outline" = none ∨
        getField j "chapters" = none ∨ getField j "authorInfo" = none) →
      (importProject (RawText.jsonOf j) true s).state = s ∧
      ∃ e, (importProject (RawText.jsonOf j) true s).alerts = [importFailAlert e]) ∧
    (jsTruthy s.projectData = true →
      importProject raw false s = ⟨s, [], true, none⟩) := by
  have hperf : performImport RawText.garbage s = (s, [importFailAlert JsError.syntaxError]) := rfl
  have himp : ∀ f : RawText, (importProject f true s).state = (performImport f s).1 ∧
      (importProject f true s).alerts = (performImport f s).2 := by
    intro f
    unfold importProject
    by_cases h1 : jsTruthy s.projectData = true <;> simp [h1]
  refine ⟨?_, ?_, ?_, ?_⟩
  · rw [(himp _).1, hperf]
  · rw [(himp _).2, hperf]
  · intro hmiss
    have hbody : ∃ e, performImportBody (RawText.jsonOf j) s = Except.error e := by
      cases hnull : isNull j with
      | true => exact ⟨JsError.typeError, by simp [performImportBody, jsonParse, hnull]⟩
      | false =>
          have hv : validDoc j = false := by
            rcases hmiss with h | h | h | h <;> simp [validDoc, truthyField, h]
          exact ⟨JsError.appError "Struktur file tidak valid atau file rusak.",
            by simp [performImportBody, jsonParse, hnull, hv]⟩
    obtain ⟨e, he⟩ := hbody
    have hpi : performImport (RawText.jsonOf j) s = (s, [importFailAlert e]) := by
      unfold performImport
      rw [he]
    exact ⟨by rw [(himp _).1, hpi], ⟨e, by rw [(himp _).2, hpi]⟩⟩
  · intro h1
    unfold importProject
    simp [h1]

/-- C3 witness: importing a document with no `outline` into an empty store
changes nothing; declining the overwrite confirmation changes nothing. -/
theorem importProject_failure_atomic_witness :
    (importProject (RawText.jsonOf (Json.obj [("title", Json.str "t")])) true
        ⟨Json.null, false, false, none⟩).state = ⟨Json.null, false, false, none⟩ ∧
    importProject RawText.garbage false
        ⟨Json.obj [("title", Json.str "t")], false, false, none⟩
      = ⟨⟨Json.obj [("title", Json.str "t")], false, false, none⟩, [], true, none⟩ := by
  constructor
  · exact ((importProject_failure_atomic ⟨Json.null, false, false, none⟩
      (Json.obj [("title", Json.str "t")]) RawText.garbage).2.2.1
      (Or.inr (Or.inl rfl))).1
  · exact (importProject_failure_atomic
      ⟨Json.obj [("title", Json.str "t")], false, false, none⟩
      Json.null RawText.garbage).2.2.2 rfl

theorem titleString_some_getField {j : Json} {t : String}
    (h : titleString j = some t) : getField j "title" = some (Json.str t) := by
  unfold titleString at h
  cases hg2 : getField j "title" with
  | none => rw [hg2] at h; exact absurd h (by simp)
  | some v =>
      rw [hg2] at h
      cases v with
      | str t2 =>
          have h2 : t2 = t := by simpa using h
          subst h2
          rfl
      | null => exact absurd h (by simp)
      | bool b => exact absurd h (by simp)
      | num n => exact absurd h (by simp)
      | arr l => exact absurd h (by simp)
      | obj fs => exact absurd h (by simp)

theorem exportProject_download (s : StoreState) (t : String)
    (h : titleString s.projectData = some t) :
    (exportProject s).download = some (exportFileName t, jsonStringify s.projectData) := by
  obtain ⟨fs, hfs⟩ := getField_some_obj (titleString_some_getField h)
  unfold exportProject
  rw [hfs] at h ⊢
  simp [jsTruthy, h]

/-- C8: with an active document whose `title` is the string `t`, exporting
triggers a download named `exportFileName t`, the slug of
`"Analisis Data!!"` is `analisis-data`, and the slug of `"???"` is empty so
the name falls back to `tanpa-judul`. -/
theorem exportProject_filename (s : StoreState) (t : String)
    (h : titleString s.projectData = some t) :
    (exportProject s).download = some (exportFileName t, jsonStringify s.projectData) ∧
    sanitizeTitle "Analisis Data!!" = "analisis-data" ∧
    sanitizeTitle "???" = "" ∧
    exportFileName "Analisis Data!!" = "proyek-akademik-analisis-data.json" ∧
    exportFileName "???" = "proyek-akademik-tanpa-judul.json" :=
  ⟨exportProject_download s t h, by decide, by decide, by decide, by decide⟩

/-- C8 witness. -/
theorem exportProject_filename_witness :
    (exportProject ⟨Json.obj [("title", Json.str "Analisis Data!!")],
        false, false, none⟩).download
      = some ("proyek-akademik-analisis-data.json",
          jsonStringify (Json.obj [("title", Json.str "Analisis Data!!")])) := by
  have e : exportFileName "Analisis Data!!" = "proyek-akademik-analisis-data.json" := by
    decide
  rw [(exportProject_filename ⟨Json.obj [("title", Json.str "Analisis Data!!")],
    false, false, none⟩ "Analisis Data!!" rfl).1, e]


theorem persistEffect_projectData (s : StoreState) :
    (persistEffect s).projectData = s.projectData := by
  unfold persistEffect
  split <;> rfl

theorem performImport_valid_projectData {j : Json} (s : StoreState)
    (hnull : isNull j = false) (hv : validDoc j = true) :
    (performImport (RawText.jsonOf j) s).1.projectData = backfill j := by
  have hb : performImportBody (RawText.jsonOf j) s = Except.ok
      (setProjectDataAndPersist (backfill j) s, ["Proyek berhasil diimpor!"]) := by
    simp [performImportBody, jsonParse, hnull, hv]
  unfold performImport
  rw [hb]
  exact persistEffect_projectData _

/-- C4 amended: for an active document whose `title` is a string and which
the optional-field backfill leaves unchanged, exporting and then importing
the exported text (confirmation granted) yields the document unchanged. -/
theorem export_reimport_roundtrip (s : StoreState) (t : String)
    (h1 : titleString s.projectData = some t)
    (h2 : backfill s.projectData = s.projectData) :
    (exportProject s).download = some (exportFileName t, jsonStringify s.projectData) ∧
    (importProject (jsonStringify s.projectData) true s).state.projectData
      = s.projectData := by
  refine ⟨exportProject_download s t h1, ?_⟩
  obtain ⟨fs, hfs⟩ := getField_some_obj (titleString_some_getField h1)
  have htru : jsTruthy s.projectData = true := by rw [hfs]; rfl
  have hnull : isNull s.projectData = false := by rw [hfs]; rfl
  have hstep : (importProject (jsonStringify s.projectData) true s).state
      = (performImport (jsonStringify s.projectData) s).1 := by
    unfold importProject
    simp [htru]
  rw [hstep]
  cases hv : validDoc s.projectData with
  | true =>
      rw [show jsonStringify s.projectData = RawText.jsonOf s.projectData from rfl,
        performImport_valid_projectData s hnull hv, h2]
  | false =>
      have hb : performImportBody (jsonStringify s.projectData) s
          = Except.error (JsError.appError "Struktur file tidak valid atau file rusak.") := by
        simp [performImportBody, jsonStringify, jsonParse, hnull, hv]
      unfold performImport
      rw [hb]

/-- C4 witness. -/
theorem export_reimport_roundtrip_witness :
    (importProject (jsonStringify initialProjectData) true
        ⟨initialProjectData, false, false, none⟩).state.projectData
      = initialProjectData :=
  (export_reimport_roundtrip ⟨initialProjectData, false, false, none⟩
    "Proyek Akademik Baru" rfl rfl).2

/-- A complete, structurally valid document whose `preface` is the (falsy)
empty string: all ten fields are present. -/
def cexDoc : Json :=
  .obj [("title", .str "t"), ("outline", .str "o"), ("chapters", .arr [.str "c"]),
        ("authorInfo", .obj [("name", .str "a")]), ("bibliography", .arr []),
        ("appendices", .arr []), ("statementPageData", .null),
        ("approvalData", .null), ("preface", .str ""), ("abstract", .str "a")]

/-- C4 counterexample: exporting `cexDoc` and importing the exported text
(confirmation granted) does not return the original document: the import
backfill overwrites the present-but-falsy `preface` with the placeholder, so
the resulting document differs from the original at `preface`
(`prefaceDefault` versus `""`). -/
theorem export_reimport_not_identity :
    (exportProject ⟨cexDoc, false, false, some (jsonStringify cexDoc)⟩).download
      = some (exportFileName "t", jsonStringify cexDoc) ∧
    getField ((importProject (jsonStringify cexDoc) true
        ⟨cexDoc, false, false, some (jsonStringify cexDoc)⟩).state.projectData) "preface"
      = some (Json.str prefaceDefault) ∧
    getField cexDoc "preface" = some (Json.str "") ∧
    prefaceDefault ≠ "" :=
  ⟨rfl, rfl, rfl, by decide⟩


/-- C5 amended: the backfill touches exactly the six optional fields: on any
object each of the six is present afterwards — unchanged when it was truthy,
the default otherwise; the backfill is idempotent; and importing a valid
document the backfill leaves unchanged (an already-complete document) is a
no-op on it. -/
theorem backfill_idempotent_complete (fs : List (String × Json)) (j : Json)
    (s : StoreState) (hvalid : validDoc j = true) (hcomplete : backfill j = j) :
    backfill (backfill (Json.obj fs)) = backfill (Json.obj fs) ∧
    getField (backfill (Json.obj fs)) "bibliography"
      = (if truthyField (Json.obj fs) "bibliography"
          then getField (Json.obj fs) "bibliography" else some (Json.arr [])) ∧
    getField (backfill (Json.obj fs)) "appendices"
      = (if truthyField (Json.obj fs) "appendices"
          then getField (Json.obj fs) "appendices" else some (Json.arr [])) ∧
    getField (backfill (Json.obj fs)) "statementPageData"
      = (if truthyField (Json.obj fs) "statementPageData"
          then getField (Json.obj fs) "statementPageData" else some Json.null) ∧
    getField (backfill (Json.obj fs)) "approvalData"
      = (if truthyField (Json.obj fs) "approvalData"
          then getField (Json.obj fs) "approvalData" else some Json.null) ∧
    getField (backfill (Json.obj fs)) "preface"
      = (if truthyField (Json.obj fs) "preface"
          then getField (Json.obj fs) "preface" else some (Json.str prefaceDefault)) ∧
    getField (backfill (Json.obj fs)) "abstract"
      = (if truthyField (Json.obj fs) "abstract"
          then getField (Json.obj fs) "abstract" else some (Json.str abstractDefault)) ∧
    (performImport (jsonStringify j) s).1.projectData = j := by
  refine ⟨backfill_idem _, getField_backfill_bibliography fs,
    getField_backfill_appendices fs, getField_backfill_statementPageData fs,
    getField_backfill_approvalData fs, getField_backfill_preface fs,
    getField_backfill_abstract fs, ?_⟩
  have h1 : truthyField j "title" = true := by
    simp only [validDoc, Bool.and_eq_true] at hvalid
    exact hvalid.1.1.1
  obtain ⟨gs, hgs⟩ := truthyField_obj h1
  have hnull : isNull j = false := by rw [hgs]; rfl
  rw [show jsonStringify j = RawText.jsonOf j from rfl,
    performImport_valid_projectData s hnull hvalid, hcomplete]

/-- C5 witness. -/
theorem backfill_idempotent_complete_witness :
    backfill (backfill (Json.obj [])) = backfill (Json.obj []) ∧
    (performImport (jsonStringify initialProjectData)
        ⟨Json.null, false, false, none⟩).1.projectData = initialProjectData := by
  have h := backfill_idempotent_complete [] initialProjectData
    ⟨Json.null, false, false, none⟩ rfl rfl
  exact ⟨h.1, h.2.2.2.2.2.2.2⟩

/-- A structurally valid document holding only the four required fields. -/
def minimalValidDoc : Json :=
  .obj [("title", .str "t"), ("outline", .str "o"), ("chapters", .arr [.str "c"]),
        ("authorInfo", .obj [("name", .str "a")])]

/-- Number of keys of an object. -/
def objSize : Json → Nat
  | .obj fs => fs.length
  | _ => 0

/-- C5 counterexample: the claim speaks of seven optional fields, but the
backfill adds only six.  Backfilling a valid document that has just the four
required keys yields ten keys — fewer than the eleven that four required
plus seven present optional fields would require. -/
theorem backfill_not_seven_fields :
    objSize minimalValidDoc = 4 ∧
    objSize (backfill minimalValidDoc) = 10 ∧
    objSize (backfill minimalValidDoc) < 4 + 7 :=
  ⟨rfl, rfl, by decide⟩

/-- C6 amended: `cdStart` raises the flag immediately; with no pending
timer the flag stays true strictly before `now + 15000` and is false from
`now + 15000` on.  A second call while active raises the flag and schedules
an additional reset but does not cancel the first timer, so the flag is
still false once 15 s have elapsed since the first call, regardless of the
second call's time. -/
theorem cooldown_window (now t t2 : Nat) (s : CdState) (h : s.timers = []) :
    (cdStart now s).flag = true ∧
    (t < now + 15000 → (cdRunThrough t (cdStart now s)).flag = true) ∧
    (now + 15000 ≤ t → (cdRunThrough t (cdStart now s)).flag = false) ∧
    (cdStart t2 (cdStart now s)).flag = true ∧
    (now + 15000 ≤ t → (cdRunThrough t (cdStart t2 (cdStart now s))).flag = false) := by
  refine ⟨rfl, ?_, ?_, rfl, ?_⟩
  · intro ht
    have hn : ¬ (now + 15000 ≤ t) := Nat.not_le.mpr ht
    unfold cdRunThrough cdStart
    rw [h]
    simp [hn]
  · intro ht
    unfold cdRunThrough cdStart
    rw [h]
    simp [ht]
  · intro ht
    unfold cdRunThrough cdStart
    rw [h]
    simp [ht]

/-- C6 witness. -/
theorem cooldown_window_witness :
    (cdStart 0 ⟨false, []⟩).flag = true ∧
    (cdRunThrough 14999 (cdStart 0 ⟨false, []⟩)).flag = true ∧
    (cdRunThrough 15000 (cdStart 0 ⟨false, []⟩)).flag = false ∧
    (cdRunThrough 20000 (cdStart 5000 (cdStart 0 ⟨false, []⟩))).flag = false :=
  ⟨(cooldown_window 0 14999 5000 ⟨false, []⟩ rfl).1,
   (cooldown_window 0 14999 5000 ⟨false, []⟩ rfl).2.1 (by decide),
   (cooldown_window 0 15000 5000 ⟨false, []⟩ rfl).2.2.1 (by decide),
   (cooldown_window 0 20000 5000 ⟨false, []⟩ rfl).2.2.2.2 (by decide)⟩

/-- C6 counterexample: calls at 0 ms and 10000 ms; at 15000 ms — 15 s after
the first call but only 5 s after the latest — the flag is already false,
refuting "the flag stays true until 15 seconds after the latest call". -/
theorem cooldown_restart_refuted :
    (cdRunThrough 15000 (cdStart 10000 (cdStart 0 ⟨false, []⟩))).flag = false ∧
    15000 < 10000 + 15000 :=
  ⟨rfl, by decide⟩

end AIScholarPro
